import Mathlib

/-!
Shallow embedding of the glint-server price pipeline.

The repository has two HTTP entry points that share one data model:

* `src/api/prices.ts` — the on-demand read path (`handler`,
  `fetchFreshPrices`, `fetchMetals`, `fetchCurrencies`);
* `src/api/cron/update-prices.ts` — the scheduled refresh path
  (`handler`, `fetchMetalPrices`, `fetchFromGoldApi`,
  `fetchFromMetalsDev`, `fetchCurrencyRates`).

Prices are JS floats divided by the constant `31.1035`; we model them as
exact rationals (`ℚ`).  Timestamps (`updatedAt`, `Date.now()`) are
milliseconds since the epoch, modelled as `Nat`; the staleness
subtraction is performed in `ℤ` because the JS subtraction of two date
values can be negative.  A client `If-Modified-Since` header that does
not parse yields `NaN` in JS, and every comparison against `NaN` is
false; we model the parse result as a three-way `Header` value and give
the `NaN` case no comparison at all, matching the JS truth table.

Network I/O and the key-value store are captured in a `World` record:
each upstream endpoint's outcome is an oracle field, the cache content
at entry is `kv`, and `kvSetFails` says whether the single `kvSet` call
of the invocation would throw.  Each embedded function returns its
value together with the list of provider calls it attempted, so that
claims about "no provider call is made" are statements about that list.
-/

namespace Glint

/-- `TROY_OZ_TO_GRAMS` from both source files. -/
def TROY_OZ_TO_GRAMS : ℚ := 31.1035

/-- `STALE_THRESHOLD_MS = 5 * 60 * 1000` from `src/api/prices.ts`. -/
def STALE_THRESHOLD_MS : ℤ := 5 * 60 * 1000

/-- The `currencies` sub-object of `PriceData`. -/
structure Currencies where
  ILS : ℚ
  EUR : ℚ
  GBP : ℚ
deriving DecidableEq

/-- The `PriceData` interface shared by both source files.
`updatedAt` is the ISO string's instant, in ms since the epoch. -/
structure PriceData where
  gold : ℚ
  silver : ℚ
  platinum : ℚ
  currencies : Currencies
  updatedAt : Nat
deriving DecidableEq

/-- A triple of metal prices (the return shape of the metal fetchers;
also the raw per-troy-ounce body of the metals.dev response). -/
structure Metals where
  gold : ℚ
  silver : ℚ
  platinum : ℚ
deriving DecidableEq

/-- Outcome of one upstream HTTP exchange: a 2xx response whose body
parsed to `val`, a non-2xx response (`res.ok` false), or a rejected
fetch / thrown parse. -/
inductive FetchOutcome (α : Type) where
  | ok (val : α)
  | httpError
  | threw
deriving DecidableEq

/-- The successful value of an exchange, if any. -/
def FetchOutcome.okVal {α : Type} : FetchOutcome α → Option α
  | .ok v => some v
  | .httpError => none
  | .threw => none

/-- Raw USD-based rates in a Frankfurter response body. -/
structure RawRates where
  ILS : ℚ
  EUR : ℚ
  GBP : ℚ
deriving DecidableEq

/-- Which upstream provider a network call went to. -/
inductive Call where
  | goldApi
  | metalsDev
  | frankfurter
deriving DecidableEq

/-- The oracle for one invocation: configured credentials, the outcome
each endpoint would produce, the cache content at entry, whether the
cache write would throw, and the value of `Date.now()`.

`goldApiKey` / `metalsDevKey` are `true` when the corresponding env var
is set and non-empty (the sources test `if (KEY)` after defaulting to
`""`). -/
structure World where
  goldApiKey : Bool
  metalsDevKey : Bool
  goldApiGold : FetchOutcome ℚ
  goldApiSilver : FetchOutcome ℚ
  goldApiPlatinum : FetchOutcome ℚ
  metalsDev : FetchOutcome Metals
  frankfurter : FetchOutcome RawRates
  kv : Option PriceData
  kvSetFails : Bool
  now : Nat

/-- The three concurrent GoldAPI exchanges succeed together or the
candidate fails: `some` exactly when `goldRes.ok && silverRes.ok &&
platRes.ok` with no rejection. -/
def goldApiOkVals (w : World) : Option (ℚ × ℚ × ℚ) :=
  match w.goldApiGold, w.goldApiSilver, w.goldApiPlatinum with
  | .ok g, .ok s, .ok p => some (g, s, p)
  | _, _, _ => none

/-- The hardcoded metal defaults `{ gold: 92.5, silver: 1.05,
platinum: 31.2 }`. -/
def defaultMetals : Metals := ⟨92.5, 1.05, 31.2⟩

/-- The hardcoded currency defaults
`{ ILS: 3.65, EUR: 1.08, GBP: 1.27 }`. -/
def defaultCurrencies : Currencies := ⟨3.65, 1.08, 1.27⟩

/-- The "absolute fallback" body of `src/api/prices.ts` lines 56-62. -/
def defaultSnapshot (now : Nat) : PriceData :=
  ⟨92.5, 1.05, 31.2, defaultCurrencies, now⟩

/-- The shared last resort of both metal fetchers: re-read the cache and
keep its metal sub-values, else the hardcoded defaults. -/
def metalsFallback (w : World) : Metals :=
  match w.kv with
  | some c => ⟨c.gold, c.silver, c.platinum⟩
  | none => defaultMetals

namespace Prices

/-- The metals.dev leg of `fetchMetals` (`src/api/prices.ts` lines
121-137): attempted only when the key is configured; on a 2xx body the
per-troy-ounce values are divided by `TROY_OZ_TO_GRAMS`; any failure
falls through to `metalsFallback`. -/
def metalsDevStep (w : World) (calls : List Call) : Metals × List Call :=
  if w.metalsDevKey then
    match FetchOutcome.okVal w.metalsDev with
    | some m =>
        (⟨m.gold / TROY_OZ_TO_GRAMS, m.silver / TROY_OZ_TO_GRAMS,
          m.platinum / TROY_OZ_TO_GRAMS⟩, calls ++ [Call.metalsDev])
    | none => (metalsFallback w, calls ++ [Call.metalsDev])
  else (metalsFallback w, calls)

/-- `fetchMetals` of `src/api/prices.ts` (lines 85-143): GoldAPI first
when its key is configured, metals.dev second, then cache/defaults. -/
def fetchMetals (w : World) : Metals × List Call :=
  if w.goldApiKey then
    match goldApiOkVals w with
    | some (g, s, p) =>
        (⟨g / TROY_OZ_TO_GRAMS, s / TROY_OZ_TO_GRAMS,
          p / TROY_OZ_TO_GRAMS⟩, [Call.goldApi])
    | none => metalsDevStep w [Call.goldApi]
  else metalsDevStep w []

/-- `fetchCurrencies` of `src/api/prices.ts` (lines 145-168): the
Frankfurter call is always attempted; on success ILS is kept as the
USD→ILS rate and EUR/GBP are inverted; otherwise cached currency
sub-values, else the hardcoded defaults. -/
def fetchCurrencies (w : World) : Currencies × List Call :=
  match FetchOutcome.okVal w.frankfurter with
  | some r => (⟨r.ILS, 1 / r.EUR, 1 / r.GBP⟩, [Call.frankfurter])
  | none =>
      match w.kv with
      | some c => (c.currencies, [Call.frankfurter])
      | none => (defaultCurrencies, [Call.frankfurter])

/-- The snapshot `fetchFreshPrices` assembles: metal values, currency
values, and `updatedAt = new Date().toISOString()` (the current time). -/
def freshSnapshot (w : World) : PriceData :=
  ⟨(fetchMetals w).1.gold, (fetchMetals w).1.silver,
    (fetchMetals w).1.platinum, (fetchCurrencies w).1, w.now⟩

/-- `fetchFreshPrices` of `src/api/prices.ts` (lines 68-83): both
sub-chains run (concurrently in the source), and since each sub-chain
ends in an infallible fallback the assembled snapshot is always
produced; the `null` branch is reachable only through a cache-read
throw, which is outside this oracle. -/
def fetchFreshPrices (w : World) : Option PriceData × List Call :=
  (some (freshSnapshot w), (fetchMetals w).2 ++ (fetchCurrencies w).2)

/-- The staleness test of `src/api/prices.ts` lines 28-30:
cache absent, or `Date.now() - parse(updatedAt) > STALE_THRESHOLD_MS`. -/
def isStale (cached : Option PriceData) (now : Nat) : Bool :=
  match cached with
  | none => true
  | some c => decide (STALE_THRESHOLD_MS < (now : ℤ) - (c.updatedAt : ℤ))

/-- The parsed `If-Modified-Since` request header: absent (or empty,
which is falsy), present but unparseable (`new Date(x).getTime()` is
`NaN`), or parsed to an instant `t` (ms). -/
inductive Header where
  | absent
  | invalid
  | valid (t : ℤ)
deriving DecidableEq

/-- What the on-demand handler sends: a 200 with a body and an optional
`Last-Modified` instant, a bare 304, or the catch-all 500. -/
inductive Response where
  | ok (lastModified : Option Nat) (body : PriceData)
  | notModified
  | serverError
deriving DecidableEq

/-- Observable result of one on-demand invocation: the response, the
provider calls attempted, and the snapshots written to the cache. -/
structure HandlerOut where
  resp : Response
  calls : List Call
  writes : List PriceData
deriving DecidableEq

/-- Lines 40-62 of `src/api/prices.ts`: with a snapshot in hand, answer
304 when a parsed client instant is `≥ updatedAt` (a `NaN` comparison is
false in JS, so the `invalid` case never matches), else a 200 carrying
the snapshot with `Last-Modified`; with no snapshot, the default body
with no `Last-Modified` header. -/
def respond (cached : Option PriceData) (hdr : Header) (now : Nat) :
    Response :=
  match cached with
  | some c =>
      match hdr with
      | .valid t =>
          if (c.updatedAt : ℤ) ≤ t then Response.notModified
          else Response.ok (some c.updatedAt) c
      | _ => Response.ok (some c.updatedAt) c
  | none => Response.ok none (defaultSnapshot now)

/-- `handler` of `src/api/prices.ts` (lines 19-66): read the cache,
refresh when stale, write the fresh snapshot (a throwing `kvSet` is
caught only by the outer catch, which answers 500), then emit. -/
def handler (w : World) (hdr : Header) : HandlerOut :=
  if isStale w.kv w.now then
    match fetchFreshPrices w with
    | (some fresh, calls) =>
        if w.kvSetFails then
          ⟨Response.serverError, calls, []⟩
        else
          ⟨respond (some fresh) hdr w.now, calls, [fresh]⟩
    | (none, calls) => ⟨respond w.kv hdr w.now, calls, []⟩
  else ⟨respond w.kv hdr w.now, [], []⟩

/-- The snapshot the emit phase sees: the fresh one when a refresh ran,
the prior cache otherwise (`cached = fresh` on line 36). -/
def cachedAfterRefresh (w : World) : Option PriceData :=
  if isStale w.kv w.now then some (freshSnapshot w) else w.kv

end Prices

namespace Cron

/-- `fetchFromGoldApi` of `src/api/cron/update-prices.ts` (lines
88-120): three concurrent exchanges; any non-2xx throws, so the
candidate yields a value exactly when all three succeed. -/
def fetchFromGoldApi (w : World) : Option Metals :=
  match goldApiOkVals w with
  | some (g, s, p) =>
      some ⟨g / TROY_OZ_TO_GRAMS, s / TROY_OZ_TO_GRAMS,
        p / TROY_OZ_TO_GRAMS⟩
  | none => none

/-- `fetchFromMetalsDev` of `src/api/cron/update-prices.ts` (lines
122-140): one exchange; non-2xx throws; on success the per-troy-ounce
values are divided by `TROY_OZ_TO_GRAMS`. -/
def fetchFromMetalsDev (w : World) : Option Metals :=
  match FetchOutcome.okVal w.metalsDev with
  | some m =>
      some ⟨m.gold / TROY_OZ_TO_GRAMS, m.silver / TROY_OZ_TO_GRAMS,
        m.platinum / TROY_OZ_TO_GRAMS⟩
  | none => none

/-- The metals.dev leg of `fetchMetalPrices` (lines 71-78): attempted
only when its key is configured; a throw is caught and falls through to
`metalsFallback`. -/
def metalsDevStep (w : World) (calls : List Call) : Metals × List Call :=
  if w.metalsDevKey then
    match fetchFromMetalsDev w with
    | some m => (m, calls ++ [Call.metalsDev])
    | none => (metalsFallback w, calls ++ [Call.metalsDev])
  else (metalsFallback w, calls)

/-- `fetchMetalPrices` of `src/api/cron/update-prices.ts` (lines
57-86): GoldAPI first when its key is configured (a throw is caught),
metals.dev second, then cache/defaults. -/
def fetchMetalPrices (w : World) : Metals × List Call :=
  if w.goldApiKey then
    match fetchFromGoldApi w with
    | some m => (m, [Call.goldApi])
    | none => metalsDevStep w [Call.goldApi]
  else metalsDevStep w []

/-- `fetchCurrencyRates` of `src/api/cron/update-prices.ts` (lines
142-169): the Frankfurter call is always attempted; on success ILS is
kept and EUR/GBP inverted; on any throw or non-2xx, cached currency
sub-values, else the hardcoded defaults. -/
def fetchCurrencyRates (w : World) : Currencies × List Call :=
  match FetchOutcome.okVal w.frankfurter with
  | some r => (⟨r.ILS, 1 / r.EUR, 1 / r.GBP⟩, [Call.frankfurter])
  | none =>
      match w.kv with
      | some c => (c.currencies, [Call.frankfurter])
      | none => (defaultCurrencies, [Call.frankfurter])

/-- What the scheduled handler sends: 401, a 200 with the refreshed
snapshot, or the catch-all 500. -/
inductive CronResponse where
  | unauthorized
  | ok (body : PriceData)
  | serverError
deriving DecidableEq

/-- Observable result of one scheduled invocation. -/
structure CronOut where
  resp : CronResponse
  calls : List Call
  writes : List PriceData
deriving DecidableEq

/-- The try-block of the scheduled handler (lines 33-54): run both
sub-chains, stamp the snapshot with the current time, write it (a
throwing `kvSet` reaches the catch, which answers 500), answer 200. -/
def run (w : World) : CronOut :=
  let m := fetchMetalPrices w
  let cur := fetchCurrencyRates w
  let priceData : PriceData :=
    ⟨m.1.gold, m.1.silver, m.1.platinum, cur.1, w.now⟩
  if w.kvSetFails then
    ⟨CronResponse.serverError, m.2 ++ cur.2, []⟩
  else
    ⟨CronResponse.ok priceData, m.2 ++ cur.2, [priceData]⟩

/-- `handler` of `src/api/cron/update-prices.ts` (lines 24-55):
when `CRON_SECRET` is set and non-empty and the `Authorization` header
differs from `"Bearer " ++ secret`, answer 401 before any work;
otherwise run the refresh.  A set-but-empty `CRON_SECRET` is falsy in
JS and is modelled as `none`. -/
def handler (w : World) (cronSecret : Option String)
    (auth : Option String) : CronOut :=
  match cronSecret with
  | some s =>
      if auth = some ("Bearer " ++ s) then run w
      else ⟨CronResponse.unauthorized, [], []⟩
  | none => run w

end Cron

/-- The unit conversion both files inline as
`price / TROY_OZ_TO_GRAMS`. -/
def pricePerGram (p : ℚ) : ℚ := p / TROY_OZ_TO_GRAMS

/-! Concrete data for witnesses and counterexamples. -/

/-- A concrete cached snapshot, stamped at t = 1000000 ms. -/
def snapA : PriceData := ⟨60, 1, 30, ⟨4, 1, 2⟩, 1000000⟩

/-- Everything configured and succeeding, cache 4 minutes old. -/
def wFresh : World :=
  { goldApiKey := true
    metalsDevKey := true
    goldApiGold := FetchOutcome.ok 2000
    goldApiSilver := FetchOutcome.ok 25
    goldApiPlatinum := FetchOutcome.ok 900
    metalsDev := FetchOutcome.ok ⟨1990, 24, 890⟩
    frankfurter := FetchOutcome.ok ⟨4, 2, 5⟩
    kv := some snapA
    kvSetFails := false
    now := 1000000 + 240000 }

/-- Same world with the cache 6 minutes old. -/
def wStale : World := { wFresh with now := 1000000 + 360000 }

/-- Stale cache and a failing cache write. -/
def wWriteFail : World := { wStale with kvSetFails := true }

/-- Stale cache, no metal credentials, currency provider down. -/
def wNoProviders : World :=
  { wStale with
    goldApiKey := false
    metalsDevKey := false
    frankfurter := FetchOutcome.threw }

/-! Helper lemmas shared by several claims. -/

/-- The currency fetch of the on-demand path always attempts exactly
the Frankfurter call. -/
theorem fetchCurrencies_calls (w : World) :
    (Prices.fetchCurrencies w).2 = [Call.frankfurter] := by
  unfold Prices.fetchCurrencies
  cases FetchOutcome.okVal w.frankfurter with
  | some r => rfl
  | none =>
      cases w.kv with
      | some c => rfl
      | none => rfl

/-- The currency fetch of the scheduled path always attempts exactly
the Frankfurter call. -/
theorem fetchCurrencyRates_calls (w : World) :
    (Cron.fetchCurrencyRates w).2 = [Call.frankfurter] := by
  unfold Cron.fetchCurrencyRates
  cases FetchOutcome.okVal w.frankfurter with
  | some r => rfl
  | none =>
      cases w.kv with
      | some c => rfl
      | none => rfl

/-- The metals.dev leg either adds its one call or (when its key is
absent or on either path's success) leaves the call list as given. -/
theorem metalsDevStep_calls (w : World) (cs : List Call) :
    ((Prices.metalsDevStep w cs).2 = cs ∨
      (Prices.metalsDevStep w cs).2 = cs ++ [Call.metalsDev]) ∧
    ((Cron.metalsDevStep w cs).2 = cs ∨
      (Cron.metalsDevStep w cs).2 = cs ++ [Call.metalsDev]) := by
  constructor
  · unfold Prices.metalsDevStep
    cases hk : w.metalsDevKey with
    | false => simp
    | true => cases ho : FetchOutcome.okVal w.metalsDev <;> simp
  · unfold Cron.metalsDevStep
    cases hk : w.metalsDevKey with
    | false => simp
    | true => cases ho : Cron.fetchFromMetalsDev w <;> simp

/-- Without a metals.dev key the leg attempts nothing. -/
theorem metalsDevStep_calls_no_key (w : World) (cs : List Call)
    (h : w.metalsDevKey = false) :
    (Prices.metalsDevStep w cs).2 = cs ∧
    (Cron.metalsDevStep w cs).2 = cs := by
  unfold Prices.metalsDevStep Cron.metalsDevStep
  simp [h]

/-! Claim theorems. -/

/-- C1: on an on-demand read with a cached snapshot whose age is at most
5 minutes, no provider call is made, the cache is not written, and the
served snapshot is the cached one unchanged (or a bare 304); a refresh
(some provider call) happens exactly when the cache is absent or its
age exceeds 5 minutes. -/
theorem C1_fresh_cache_served_unchanged (w : World) (hdr : Prices.Header) :
    ((Prices.handler w hdr).calls ≠ [] ↔
      w.kv = none ∨ ∃ c, w.kv = some c ∧
        STALE_THRESHOLD_MS < (w.now : ℤ) - (c.updatedAt : ℤ)) ∧
    (∀ c, w.kv = some c →
      (w.now : ℤ) - (c.updatedAt : ℤ) ≤ STALE_THRESHOLD_MS →
      (Prices.handler w hdr).calls = [] ∧
      (Prices.handler w hdr).writes = [] ∧
      ((Prices.handler w hdr).resp = Prices.Response.notModified ∨
        (Prices.handler w hdr).resp =
          Prices.Response.ok (some c.updatedAt) c)) := by
  constructor
  · constructor
    · intro hne
      by_cases hs : Prices.isStale w.kv w.now = true
      · unfold Prices.isStale at hs
        cases hkv : w.kv with
        | none => exact Or.inl rfl
        | some c =>
            rw [hkv] at hs
            refine Or.inr ⟨c, rfl, ?_⟩
            simpa using hs
      · exact absurd (by simp [Prices.handler, hs]) hne
    · intro h
      have hs : Prices.isStale w.kv w.now = true := by
        rcases h with h | ⟨c, hc, hlt⟩
        · simp [Prices.isStale, h]
        · simp [Prices.isStale, hc, hlt]
      cases hks : w.kvSetFails <;>
        simp [Prices.handler, hs, Prices.fetchFreshPrices, hks,
          fetchCurrencies_calls]
  · intro c hc hle
    have hs : Prices.isStale (some c) w.now = false := by
      unfold Prices.isStale
      simp
      omega
    refine ⟨by simp [Prices.handler, hc, hs], by simp [Prices.handler, hc, hs], ?_⟩
    cases hdr with
    | valid t =>
        by_cases ht : (c.updatedAt : ℤ) ≤ t
        · exact Or.inl (by simp [Prices.handler, hc, hs, Prices.respond, ht])
        · exact Or.inr (by simp [Prices.handler, hc, hs, Prices.respond, ht])
    | absent => exact Or.inr (by simp [Prices.handler, hc, hs, Prices.respond])
    | invalid => exact Or.inr (by simp [Prices.handler, hc, hs, Prices.respond])

/-- Witness for C1: in `wFresh` (cache 4 minutes old) the handler makes
no call, writes nothing, and serves the cached snapshot. -/
theorem C1_fresh_cache_served_unchanged_witness :
    wFresh.kv = some snapA ∧
    (wFresh.now : ℤ) - (snapA.updatedAt : ℤ) ≤ STALE_THRESHOLD_MS ∧
    (Prices.handler wFresh Prices.Header.absent).calls = [] ∧
    (Prices.handler wFresh Prices.Header.absent).writes = [] ∧
    ((Prices.handler wFresh Prices.Header.absent).resp =
        Prices.Response.notModified ∨
      (Prices.handler wFresh Prices.Header.absent).resp =
        Prices.Response.ok (some snapA.updatedAt) snapA) := by
  have h := (C1_fresh_cache_served_unchanged wFresh Prices.Header.absent).2
    snapA rfl (by decide)
  exact ⟨rfl, by decide, h.1, h.2.1, h.2.2⟩

/-- C2: in both metal chains, when the primary credential is configured
and all three GoldAPI endpoints succeed, the secondary provider is never
invoked; and a candidate whose credential is absent is never the target
of a network call. -/
theorem C2_chain_stops_at_first_success (w : World) :
    (w.goldApiKey = true → (goldApiOkVals w).isSome →
      Call.metalsDev ∉ (Prices.fetchMetals w).2 ∧
      Call.metalsDev ∉ (Cron.fetchMetalPrices w).2) ∧
    (w.goldApiKey = false →
      Call.goldApi ∉ (Prices.fetchMetals w).2 ∧
      Call.goldApi ∉ (Cron.fetchMetalPrices w).2) ∧
    (w.metalsDevKey = false →
      Call.metalsDev ∉ (Prices.fetchMetals w).2 ∧
      Call.metalsDev ∉ (Cron.fetchMetalPrices w).2) := by
  refine ⟨?_, ?_, ?_⟩
  · intro hk hsome
    obtain ⟨⟨g, s, p⟩, hv⟩ := Option.isSome_iff_exists.mp hsome
    constructor
    · simp [Prices.fetchMetals, hk, hv]
    · simp [Cron.fetchMetalPrices, hk, Cron.fetchFromGoldApi, hv]
  · intro hk
    constructor
    · rcases (metalsDevStep_calls w []).1 with h | h <;>
        simp [Prices.fetchMetals, hk, h]
    · rcases (metalsDevStep_calls w []).2 with h | h <;>
        simp [Cron.fetchMetalPrices, hk, h]
  · intro hk
    constructor
    · cases hg : w.goldApiKey with
      | false =>
          simp [Prices.fetchMetals, hg,
            (metalsDevStep_calls_no_key w [] hk).1]
      | true =>
          cases hv : goldApiOkVals w with
          | some v =>
              obtain ⟨g, s, p⟩ := v
              simp [Prices.fetchMetals, hg, hv]
          | none =>
              simp [Prices.fetchMetals, hg, hv,
                (metalsDevStep_calls_no_key w [Call.goldApi] hk).1]
    · cases hg : w.goldApiKey with
      | false =>
          simp [Cron.fetchMetalPrices, hg,
            (metalsDevStep_calls_no_key w [] hk).2]
      | true =>
          cases hv : Cron.fetchFromGoldApi w with
          | some m =>
              simp [Cron.fetchMetalPrices, hg, hv]
          | none =>
              simp [Cron.fetchMetalPrices, hg, hv,
                (metalsDevStep_calls_no_key w [Call.goldApi] hk).2]

/-- Witness for C2: in `wFresh` both credentials are set and GoldAPI
succeeds, so neither chain calls metals.dev; and in `wNoProviders`
neither metal provider is called at all. -/
theorem C2_chain_stops_at_first_success_witness :
    wFresh.goldApiKey = true ∧ (goldApiOkVals wFresh).isSome = true ∧
    Call.metalsDev ∉ (Prices.fetchMetals wFresh).2 ∧
    Call.metalsDev ∉ (Cron.fetchMetalPrices wFresh).2 ∧
    wNoProviders.goldApiKey = false ∧
    Call.goldApi ∉ (Prices.fetchMetals wNoProviders).2 := by
  have h1 := (C2_chain_stops_at_first_success wFresh).1 rfl (by decide)
  have h2 := ((C2_chain_stops_at_first_success wNoProviders).2).1 rfl
  exact ⟨rfl, by decide, h1.1, h1.2, rfl, h2.1⟩

/-- C3 counterexample: in `wWriteFail` the cache is stale, the refresh
computes a fresh snapshot, and the cache write fails — yet the handler
answers the generic error response instead of returning the fresh
snapshot with a success status.  The `await kvSet` on line 35 of
`src/api/prices.ts` sits inside the outer try, whose catch (lines
63-65) answers 500. -/
theorem C3_write_failure_counterexample :
    Prices.isStale wWriteFail.kv wWriteFail.now = true ∧
    (Prices.fetchFreshPrices wWriteFail).1.isSome = true ∧
    wWriteFail.kvSetFails = true ∧
    (Prices.handler wWriteFail Prices.Header.absent).resp =
      Prices.Response.serverError := by
  decide

/-- C3 amended: on the on-demand path, when a refresh runs and the
cache-store write fails, the failure is not swallowed — the handler
answers the generic error response and the fresh snapshot is not
returned (and nothing is recorded as written). -/
theorem C3_write_failure_fails_response (w : World) (hdr : Prices.Header)
    (hs : Prices.isStale w.kv w.now = true)
    (hf : w.kvSetFails = true) :
    (Prices.handler w hdr).resp = Prices.Response.serverError ∧
    (Prices.handler w hdr).writes = [] := by
  simp [Prices.handler, hs, Prices.fetchFreshPrices, hf]

/-- Witness for the amended C3, at `wWriteFail`. -/
theorem C3_write_failure_fails_response_witness :
    Prices.isStale wWriteFail.kv wWriteFail.now = true ∧
    wWriteFail.kvSetFails = true ∧
    (Prices.handler wWriteFail Prices.Header.absent).resp =
      Prices.Response.serverError ∧
    (Prices.handler wWriteFail Prices.Header.absent).writes = [] := by
  have h := C3_write_failure_fails_response wWriteFail Prices.Header.absent
    (by decide) rfl
  exact ⟨by decide, rfl, h.1, h.2⟩

/-- The metals.dev leg yields the shared fallback whenever it cannot
succeed (key absent, or its exchange unsuccessful). -/
theorem metalsDevStep_fallback (w : World) (cs : List Call)
    (hm : w.metalsDevKey = true → FetchOutcome.okVal w.metalsDev = none) :
    (Prices.metalsDevStep w cs).1 = metalsFallback w ∧
    (Cron.metalsDevStep w cs).1 = metalsFallback w := by
  constructor
  · unfold Prices.metalsDevStep
    cases hk : w.metalsDevKey with
    | false => simp
    | true => simp [hm hk]
  · unfold Cron.metalsDevStep
    cases hk : w.metalsDevKey with
    | false => simp
    | true => simp [Cron.fetchFromMetalsDev, hm hk]

/-- C4: when every metal candidate fails or is unconfigured, both metal
chains yield the prior cached metal sub-values when a cache exists, and
the hardcoded defaults `⟨92.5, 1.05, 31.2⟩` when it does not. -/
theorem C4_metal_fallback_values (w : World)
    (hg : w.goldApiKey = true → goldApiOkVals w = none)
    (hm : w.metalsDevKey = true → FetchOutcome.okVal w.metalsDev = none) :
    (Prices.fetchMetals w).1 = metalsFallback w ∧
    (Cron.fetchMetalPrices w).1 = metalsFallback w ∧
    (∀ c, w.kv = some c →
      metalsFallback w = ⟨c.gold, c.silver, c.platinum⟩) ∧
    (w.kv = none → metalsFallback w = ⟨92.5, 1.05, 31.2⟩) := by
  refine ⟨?_, ?_, ?_, ?_⟩
  · cases hgk : w.goldApiKey with
    | true =>
        simp [Prices.fetchMetals, hgk, hg hgk,
          (metalsDevStep_fallback w [Call.goldApi] hm).1]
    | false =>
        simp [Prices.fetchMetals, hgk,
          (metalsDevStep_fallback w [] hm).1]
  · cases hgk : w.goldApiKey with
    | true =>
        simp [Cron.fetchMetalPrices, hgk, Cron.fetchFromGoldApi, hg hgk,
          (metalsDevStep_fallback w [Call.goldApi] hm).2]
    | false =>
        simp [Cron.fetchMetalPrices, hgk,
          (metalsDevStep_fallback w [] hm).2]
  · intro c hc
    simp [metalsFallback, hc]
  · intro hc
    simp [metalsFallback, hc, defaultMetals]

/-- Witness for C4: in `wNoProviders` (no credentials, currency provider
down, prior cache `snapA`) both chains return `snapA`'s metal values. -/
theorem C4_metal_fallback_values_witness :
    (Prices.fetchMetals wNoProviders).1 = metalsFallback wNoProviders ∧
    (Cron.fetchMetalPrices wNoProviders).1 = metalsFallback wNoProviders ∧
    metalsFallback wNoProviders =
      ⟨snapA.gold, snapA.silver, snapA.platinum⟩ := by
  have h := C4_metal_fallback_values wNoProviders (by decide) (by decide)
  exact ⟨h.1, h.2.1, h.2.2.1 snapA rfl⟩

/-- The 304 decision of the emit phase, for a parsed client instant. -/
theorem respond_valid (c : PriceData) (t : ℤ) (now : Nat) :
    (Prices.respond (some c) (Prices.Header.valid t) now =
        Prices.Response.notModified ↔ (c.updatedAt : ℤ) ≤ t) ∧
    (t < (c.updatedAt : ℤ) →
      Prices.respond (some c) (Prices.Header.valid t) now =
        Prices.Response.ok (some c.updatedAt) c) := by
  unfold Prices.respond
  by_cases ht : (c.updatedAt : ℤ) ≤ t
  · simp [ht]
  · simp [ht]

/-- C5: for an on-demand read whose emit phase holds a snapshot `c` and
whose client supplied a parsed conditional instant `t`, the response is
a bodyless 304 exactly when `t ≥ c.updatedAt` (equality included);
when `t < c.updatedAt` the full snapshot is emitted with `updatedAt` as
its `Last-Modified` validation timestamp. -/
theorem C5_conditional_not_modified (w : World) (t : ℤ) (c : PriceData)
    (hc : Prices.cachedAfterRefresh w = some c)
    (herr : (Prices.handler w (Prices.Header.valid t)).resp ≠
      Prices.Response.serverError) :
    ((Prices.handler w (Prices.Header.valid t)).resp =
        Prices.Response.notModified ↔ (c.updatedAt : ℤ) ≤ t) ∧
    (t < (c.updatedAt : ℤ) →
      (Prices.handler w (Prices.Header.valid t)).resp =
        Prices.Response.ok (some c.updatedAt) c) := by
  cases hstale : Prices.isStale w.kv w.now with
  | true =>
      have hcf : Prices.freshSnapshot w = c := by
        simpa [Prices.cachedAfterRefresh, hstale] using hc
      cases hks : w.kvSetFails with
      | true =>
          exact absurd
            (by simp [Prices.handler, hstale, Prices.fetchFreshPrices, hks])
            herr
      | false =>
          have hr : (Prices.handler w (Prices.Header.valid t)).resp =
              Prices.respond (some c) (Prices.Header.valid t) w.now := by
            simp [Prices.handler, hstale, Prices.fetchFreshPrices, hks, hcf]
          rw [hr]
          exact respond_valid c t w.now
  | false =>
      have hkv : w.kv = some c := by
        simpa [Prices.cachedAfterRefresh, hstale] using hc
      rw [hkv] at hstale
      have hr : (Prices.handler w (Prices.Header.valid t)).resp =
          Prices.respond (some c) (Prices.Header.valid t) w.now := by
        simp [Prices.handler, hkv, hstale]
      rw [hr]
      exact respond_valid c t w.now

/-- Witness for C5: in `wFresh` a client instant exactly equal to the
cached `updatedAt` yields a 304. -/
theorem C5_conditional_not_modified_witness :
    Prices.cachedAfterRefresh wFresh = some snapA ∧
    (Prices.handler wFresh (Prices.Header.valid 1000000)).resp =
      Prices.Response.notModified := by
  have h := C5_conditional_not_modified wFresh 1000000 snapA (by decide)
    (by decide)
  exact ⟨by decide, h.1.mpr (by decide)⟩

/-- C6: whenever the currency provider succeeds with USD-based rates,
both paths keep ILS as the USD→ILS rate and invert EUR and GBP to
foreign→USD. -/
theorem C6_currency_mapping (w : World) (r : RawRates)
    (h : w.frankfurter = FetchOutcome.ok r) :
    (Prices.fetchCurrencies w).1 = ⟨r.ILS, 1 / r.EUR, 1 / r.GBP⟩ ∧
    (Cron.fetchCurrencyRates w).1 = ⟨r.ILS, 1 / r.EUR, 1 / r.GBP⟩ := by
  constructor
  · simp [Prices.fetchCurrencies, h, FetchOutcome.okVal]
  · simp [Cron.fetchCurrencyRates, h, FetchOutcome.okVal]

/-- Witness for C6 at `wFresh`: rates (4, 2, 5) become (4, 1/2, 1/5). -/
theorem C6_currency_mapping_witness :
    wFresh.frankfurter = FetchOutcome.ok ⟨4, 2, 5⟩ ∧
    (Prices.fetchCurrencies wFresh).1 = ⟨4, 1 / 2, 1 / 5⟩ ∧
    (Cron.fetchCurrencyRates wFresh).1 = ⟨4, 1 / 2, 1 / 5⟩ := by
  have h := C6_currency_mapping wFresh ⟨4, 2, 5⟩ rfl
  refine ⟨rfl, ?_, ?_⟩
  · rw [h.1]
  · rw [h.2]

/-- C7: every per-troy-ounce price a metal provider returns is placed in
the result divided by `31.1035` — the same conversion for all three
metals, both providers, and both entry points. -/
theorem C7_price_per_gram (w : World) (g s p : ℚ)
    (hgp : 0 < g) (hsp : 0 < s) (hpp : 0 < p) :
    (w.goldApiKey = true →
      w.goldApiGold = FetchOutcome.ok g →
      w.goldApiSilver = FetchOutcome.ok s →
      w.goldApiPlatinum = FetchOutcome.ok p →
      (Prices.fetchMetals w).1 =
        ⟨pricePerGram g, pricePerGram s, pricePerGram p⟩ ∧
      (Cron.fetchMetalPrices w).1 =
        ⟨pricePerGram g, pricePerGram s, pricePerGram p⟩) ∧
    (w.goldApiKey = false → w.metalsDevKey = true →
      w.metalsDev = FetchOutcome.ok ⟨g, s, p⟩ →
      (Prices.fetchMetals w).1 =
        ⟨pricePerGram g, pricePerGram s, pricePerGram p⟩ ∧
      (Cron.fetchMetalPrices w).1 =
        ⟨pricePerGram g, pricePerGram s, pricePerGram p⟩) ∧
    pricePerGram g = g / 31.1035 := by
  refine ⟨?_, ?_, ?_⟩
  · intro hk h1 h2 h3
    have hv : goldApiOkVals w = some (g, s, p) := by
      simp [goldApiOkVals, h1, h2, h3]
    constructor
    · simp [Prices.fetchMetals, hk, hv, pricePerGram]
    · simp [Cron.fetchMetalPrices, hk, Cron.fetchFromGoldApi, hv,
        pricePerGram]
  · intro hk hmk hmd
    constructor
    · simp [Prices.fetchMetals, hk, Prices.metalsDevStep, hmk,
        FetchOutcome.okVal, hmd, pricePerGram]
    · simp [Cron.fetchMetalPrices, hk, Cron.metalsDevStep, hmk,
        Cron.fetchFromMetalsDev, FetchOutcome.okVal, hmd, pricePerGram]
  · rfl

/-- Witness for C7 at `wFresh`'s GoldAPI quotes (2000, 25, 900). -/
theorem C7_price_per_gram_witness :
    (0 : ℚ) < 2000 ∧
    (Prices.fetchMetals wFresh).1 =
      ⟨pricePerGram 2000, pricePerGram 25, pricePerGram 900⟩ ∧
    (Cron.fetchMetalPrices wFresh).1 =
      ⟨pricePerGram 2000, pricePerGram 25, pricePerGram 900⟩ ∧
    pricePerGram 2000 = 2000 / 31.1035 := by
  have h := C7_price_per_gram wFresh 2000 25 900 (by decide) (by decide)
    (by decide)
  have h1 := h.1 rfl rfl rfl rfl
  exact ⟨by decide, h1.1, h1.2, h.2.2⟩

/-- C8: a scheduled refresh with a configured secret and a mismatched
(or missing) supplied secret is rejected with 401 before any work: no
provider call is attempted and the cache is never written. -/
theorem C8_secret_mismatch_rejected (w : World) (s : String)
    (auth : Option String)
    (h : auth ≠ some ("Bearer " ++ s)) :
    Cron.handler w (some s) auth =
      ⟨Cron.CronResponse.unauthorized, [], []⟩ := by
  unfold Cron.handler
  simp [h]

/-- Witness for C8: secret "topsecret", header "Bearer nope". -/
theorem C8_secret_mismatch_rejected_witness :
    some "Bearer nope" ≠ some ("Bearer " ++ "topsecret") ∧
    Cron.handler wFresh (some "topsecret") (some "Bearer nope") =
      ⟨Cron.CronResponse.unauthorized, [], []⟩ := by
  exact ⟨by decide,
    C8_secret_mismatch_rejected wFresh "topsecret" (some "Bearer nope")
      (by decide)⟩

/-- C9: on an on-demand read with a stale cached snapshot, succeeding
providers and a succeeding write, the served snapshot is the fresh one,
its `updatedAt` is the current time and is strictly greater than the
prior cached `updatedAt`; and every snapshot this handler writes over
the "prices" key carries an `updatedAt` strictly above the prior one. -/
theorem C9_updated_at_monotone (w : World) (c : PriceData)
    (hkv : w.kv = some c)
    (hstale : STALE_THRESHOLD_MS < (w.now : ℤ) - (c.updatedAt : ℤ))
    (hprov : w.goldApiKey = true ∧ (goldApiOkVals w).isSome ∧
      (FetchOutcome.okVal w.frankfurter).isSome)
    (hset : w.kvSetFails = false) :
    (Prices.handler w Prices.Header.absent).resp =
      Prices.Response.ok (some (Prices.freshSnapshot w).updatedAt)
        (Prices.freshSnapshot w) ∧
    (Prices.freshSnapshot w).updatedAt = w.now ∧
    c.updatedAt < (Prices.freshSnapshot w).updatedAt ∧
    (∀ hdr f, f ∈ (Prices.handler w hdr).writes →
      c.updatedAt < f.updatedAt) := by
  have hs : Prices.isStale w.kv w.now = true := by
    simp [Prices.isStale, hkv, hstale]
  have hTpos : (0 : ℤ) < STALE_THRESHOLD_MS := by decide
  have hlt : c.updatedAt < w.now := by omega
  refine ⟨?_, rfl, hlt, ?_⟩
  · simp [Prices.handler, hs, Prices.fetchFreshPrices, hset, Prices.respond]
  · intro hdr f hf
    have hw : (Prices.handler w hdr).writes = [Prices.freshSnapshot w] := by
      simp [Prices.handler, hs, Prices.fetchFreshPrices, hset]
    rw [hw] at hf
    simp at hf
    rw [hf]
    exact hlt

/-- Witness for C9 at `wStale` (cache 6 minutes old, all providers and
the write succeeding). -/
theorem C9_updated_at_monotone_witness :
    wStale.kv = some snapA ∧
    STALE_THRESHOLD_MS < (wStale.now : ℤ) - (snapA.updatedAt : ℤ) ∧
    (Prices.handler wStale Prices.Header.absent).resp =
      Prices.Response.ok (some (Prices.freshSnapshot wStale).updatedAt)
        (Prices.freshSnapshot wStale) ∧
    snapA.updatedAt < (Prices.freshSnapshot wStale).updatedAt := by
  have h := C9_updated_at_monotone wStale snapA rfl (by decide)
    ⟨rfl, by decide, by decide⟩ rfl
  exact ⟨rfl, by decide, h.1, h.2.2.1⟩

/-- C10: an on-demand read whose conditional header does not parse (its
JS date value is `NaN`) never takes the 304 branch; whenever the emit
phase holds a snapshot and no write failure intervened, the full
snapshot is emitted with its `Last-Modified` timestamp. -/
theorem C10_invalid_header_full_body (w : World) :
    (Prices.handler w Prices.Header.invalid).resp ≠
      Prices.Response.notModified ∧
    (∀ c, Prices.cachedAfterRefresh w = some c →
      (Prices.handler w Prices.Header.invalid).resp ≠
        Prices.Response.serverError →
      (Prices.handler w Prices.Header.invalid).resp =
        Prices.Response.ok (some c.updatedAt) c) := by
  constructor
  · cases hs : Prices.isStale w.kv w.now with
    | true =>
        cases hks : w.kvSetFails with
        | true =>
            simp [Prices.handler, hs, Prices.fetchFreshPrices, hks]
        | false =>
            simp [Prices.handler, hs, Prices.fetchFreshPrices, hks,
              Prices.respond]
    | false =>
        cases hkv : w.kv with
        | some c =>
            rw [hkv] at hs
            simp [Prices.handler, hkv, hs, Prices.respond]
        | none =>
            rw [hkv] at hs
            exact absurd hs (by simp [Prices.isStale])
  · intro c hc herr
    cases hs : Prices.isStale w.kv w.now with
    | true =>
        have hcf : Prices.freshSnapshot w = c := by
          simpa [Prices.cachedAfterRefresh, hs] using hc
        cases hks : w.kvSetFails with
        | true =>
            exact absurd
              (by simp [Prices.handler, hs, Prices.fetchFreshPrices, hks])
              herr
        | false =>
            simp [Prices.handler, hs, Prices.fetchFreshPrices, hks,
              Prices.respond, hcf]
    | false =>
        have hkv : w.kv = some c := by
          simpa [Prices.cachedAfterRefresh, hs] using hc
        rw [hkv] at hs
        simp [Prices.handler, hkv, hs, Prices.respond]

/-- Witness for C10 at `wFresh`: the unparseable header yields the full
cached snapshot, not a 304. -/
theorem C10_invalid_header_full_body_witness :
    Prices.cachedAfterRefresh wFresh = some snapA ∧
    (Prices.handler wFresh Prices.Header.invalid).resp ≠
      Prices.Response.notModified ∧
    (Prices.handler wFresh Prices.Header.invalid).resp =
      Prices.Response.ok (some snapA.updatedAt) snapA := by
  have h := C10_invalid_header_full_body wFresh
  exact ⟨by decide, h.1, h.2 snapA (by decide) (by decide)⟩

end Glint
